import Mathlib

/-!
Verification of the numerical core of the Am1-CN repository.

The development shallowly embeds the parts of the code that the checked
properties are about:

* `Temporal_Schemes.py` — the one-step scheme `Euler`, the two-step scheme
  `Leap_Frog` and the driver `integrate_cauchy`.  Python floats are modelled
  by exact rationals; a run of the driver that raises an exception in Python
  (`ZeroDivisionError` on `dt = 0`, `ValueError` from `np.zeros` on a
  negative point count, `IndexError` on an out-of-range write, `TypeError`
  on a scheme of the wrong arity) is modelled by `none`.
* `problems.py` — the right-hand sides `kepler_rhs`, `nbody_rhs`,
  `crtbp_rhs`, `arenstorf_rhs` and the Lagrange-point locator
  `crtbp_lagrange_points`, over the reals.  A division whose denominator is
  exactly zero produces non-finite floats (`inf`/`nan`) in the Python code;
  the embedding of the two unguarded right-hand sides returns an `Option`
  and models that outcome by `none`.
* `Stability.py` — the amplification factors `G_euler`, `G_inverse_euler`,
  `G_crank_nicolson`, `G_rk4` and the Leap-Frog stability predicate
  `stable_leapfrog`, over the complex numbers.
-/

/-! ## Temporal_Schemes.py: states, schemes and the Cauchy driver -/

/-- A state vector of dimension `d` (a NumPy array of `d` floats). -/
abbrev State (d : ℕ) := Fin d → ℚ

/-- A right-hand side `F(U, t)` of the ODE `dU/dt = F(U, t)`. -/
abbrev Rhs (d : ℕ) := State d → ℚ → State d

/-- The signature `scheme(U, t, dt, F)` of a one-step temporal scheme. -/
abbrev OneStep (d : ℕ) := State d → ℚ → ℚ → Rhs d → State d

/-- The signature `scheme(U, U_prev, t, dt, F)` of a two-step scheme. -/
abbrev TwoStep (d : ℕ) := State d → State d → ℚ → ℚ → Rhs d → State d

/-- Explicit Euler: `U + dt * F(U, t)`. -/
def Euler (d : ℕ) (U : State d) (t dt : ℚ) (F : Rhs d) : State d :=
  U + dt • F U t

/-- Leap-Frog: `U_prev + 2*dt*F(U, t)`. -/
def Leap_Frog (d : ℕ) (U U_prev : State d) (t dt : ℚ) (F : Rhs d) : State d :=
  U_prev + (2 * dt) • F U t

/-- Conversion of a rational to an integer the way Python's `int(...)`
converts a float: truncation toward zero. -/
def pytrunc (q : ℚ) : ℤ :=
  if q < 0 then -⌊-q⌋ else ⌊q⌋

/-- The point count `n_steps = int((t_final - t_initial) / dt) + 1` computed
by `integrate_cauchy`. -/
def n_steps (t0 tf dt : ℚ) : ℤ :=
  pytrunc ((tf - t0) / dt) + 1

/-- The time grid `np.linspace(a, b, n)` (with its default `endpoint=True`):
`n` points from `a` to `b` inclusive, hence of spacing `(b - a)/(n - 1)`;
for `n = 1` the single point `a`, for `n = 0` the empty array. -/
def linspace (a b : ℚ) (n : ℕ) : List ℚ :=
  if n ≤ 1 then List.replicate n a
  else (List.range n).map fun k : ℕ => a + (k : ℚ) * (b - a) / ((n : ℚ) - 1)

/-- The time grid `t_array` built by `integrate_cauchy`. -/
def tgrid (t0 tf dt : ℚ) : List ℚ :=
  linspace t0 tf (n_steps t0 tf dt).toNat

/-- The states written by the one-step loop of `integrate_cauchy`
(`U_array[i+1,:] = scheme(U_array[i,:], t_array[i], dt, F)`), as a function
of the row index; `ts i` is the grid time `t_array[i]`. -/
def one_step_orbit (d : ℕ) (s : OneStep d) (U0 : State d) (ts : ℕ → ℚ)
    (dt : ℚ) (F : Rhs d) : ℕ → State d
  | 0 => U0
  | i + 1 => s (one_step_orbit d s U0 ts dt F i) (ts i) dt F

/-- The states written by the Leap-Frog branch of `integrate_cauchy`: row 0
is `U0`, row 1 is the explicit-Euler bootstrap
`Euler(U_array[0,:], t_array[0], dt, F)`, and row `i+2` is
`scheme(U_array[i+1,:], U_array[i,:], t_array[i+1], dt, F)`. -/
def leapfrog_orbit (d : ℕ) (s : TwoStep d) (U0 : State d) (ts : ℕ → ℚ)
    (dt : ℚ) (F : Rhs d) : ℕ → State d
  | 0 => U0
  | 1 => Euler d U0 (ts 0) dt F
  | i + 2 => s (leapfrog_orbit d s U0 ts dt F (i + 1))
      (leapfrog_orbit d s U0 ts dt F i) (ts (i + 1)) dt F

/-- The `scheme` argument of `integrate_cauchy`: Python passes either a
one-step or a two-step function; the branch taken is chosen by the
`is_leapfrog` keyword, and a scheme of the wrong arity for the chosen
branch raises a `TypeError` when first called. -/
inductive SchemeArg (d : ℕ) where
  | one (s : OneStep d)
  | two (s : TwoStep d)

/-- The driver `integrate_cauchy(scheme, U0, (t0, tf), dt, F, is_leapfrog is
a keyword)`.  `none` models a Python exception before a trajectory is
returned: `dt = 0` raises `ZeroDivisionError` in `(tf - t0) / dt`;
`n_steps < 0` makes `np.zeros((n_steps, d))` raise `ValueError`;
`n_steps = 0` makes the write `U_array[0, :] = U0` raise `IndexError`;
in Leap-Frog mode `n_steps = 1` makes the bootstrap write `U_array[1, :]`
raise `IndexError`; a scheme of the wrong arity raises `TypeError` in the
stepping loop.  Otherwise the result is the pair `(t_array, U_array)`. -/
def integrate_cauchy (d : ℕ) (scheme : SchemeArg d) (U0 : State d)
    (t0 tf dt : ℚ) (F : Rhs d) (is_leapfrog : Bool) :
    Option (List ℚ × List (State d)) :=
  if dt = 0 then none
  else
    let n : ℤ := n_steps t0 tf dt
    if n < 0 then none
    else if n = 0 then none
    else
      let ts := linspace t0 tf n.toNat
      let tsf : ℕ → ℚ := fun i => ts.getD i 0
      if is_leapfrog then
        if n < 2 then none
        else
          match scheme with
          | .two s => some (ts, (List.range n.toNat).map (leapfrog_orbit d s U0 tsf dt F))
          | .one _ => none
      else
        match scheme with
        | .one s => some (ts, (List.range n.toNat).map (one_step_orbit d s U0 tsf dt F))
        | .two _ => none

/-- The state rows returned by a Leap-Frog-mode run of `integrate_cauchy`
with the scheme `Leap_Frog`, as a list. -/
def lf_traj (d : ℕ) (U0 : State d) (t0 tf dt : ℚ) (F : Rhs d) :
    List (State d) :=
  (List.range (n_steps t0 tf dt).toNat).map
    (leapfrog_orbit d (Leap_Frog d) U0 (fun i => (tgrid t0 tf dt).getD i 0) dt F)

/-! ## problems.py: gravitational right-hand sides and Lagrange points -/

/-- Euclidean norm of a 3-vector, `np.linalg.norm`. -/
noncomputable def norm3 (v : Fin 3 → ℝ) : ℝ :=
  Real.sqrt (∑ c, (v c) ^ 2)

/-- One inner iteration of the acceleration loop of `nbody_rhs`, for an
ordered pair of distinct bodies: the contribution of body `j` (position
`rj`, mass `mj`) to the acceleration of body `i` (position `ri`), by
component.  The loop computes `dist = np.linalg.norm(pos[i] - pos[j])` and
skips the pair (`continue`) when `dist < 1e-10`; otherwise it adds
`-G * masses[j] * (pos[i] - pos[j]) / dist**3`. -/
noncomputable def nbody_pair_acc (G mj : ℝ) (ri rj : Fin 3 → ℝ) :
    Fin 3 → ℝ := fun c =>
  if norm3 (fun e => ri e - rj e) < 1e-10 then 0
  else -G * mj * (ri c - rj c) / norm3 (fun e => ri e - rj e) ^ 3

/-- The acceleration array `acc` of `nbody_rhs`, by body and component: the
sum over the inner loop `for j in range(N)` with its `if i != j` test. -/
noncomputable def nbody_acc (N : ℕ) (masses : Fin N → ℝ) (G : ℝ)
    (pos : Fin N → Fin 3 → ℝ) : Fin N → Fin 3 → ℝ := fun i c =>
  ∑ j, if j = i then 0 else nbody_pair_acc G (masses j) (pos i) (pos j) c

/-- The right-hand side `nbody_rhs(U, t, masses, G)`.  The flat state vector
`U` of length `6N` is the concatenation of all positions then all
velocities, and the returned flat vector the concatenation of all
velocities then all accelerations; the embedding works with the reshaped
`(N, 3)` views `pos`/`vel` directly, so the pair below is the
`(dU[:3N], dU[3N:])` split of the result: `(vel, acc)`. -/
noncomputable def nbody_rhs (N : ℕ) (masses : Fin N → ℝ) (G : ℝ)
    (pos vel : Fin N → Fin 3 → ℝ) :
    (Fin N → Fin 3 → ℝ) × (Fin N → Fin 3 → ℝ) :=
  (vel, nbody_acc N masses G pos)

/-- The right-hand side `kepler_rhs(U, t, mu)` for the state
`U = [x, y, vx, vy]`: with `r = sqrt(x^2 + y^2)`, the acceleration is set
to `(0, 0)` when `r < 1e-10` and to `(-mu*x/r^3, -mu*y/r^3)` otherwise. -/
noncomputable def kepler_rhs (mu : ℝ) (U : Fin 4 → ℝ) : Fin 4 → ℝ :=
  if Real.sqrt ((U 0) ^ 2 + (U 1) ^ 2) < 1e-10 then
    ![U 2, U 3, 0, 0]
  else
    ![U 2, U 3,
      -mu * U 0 / Real.sqrt ((U 0) ^ 2 + (U 1) ^ 2) ^ 3,
      -mu * U 1 / Real.sqrt ((U 0) ^ 2 + (U 1) ^ 2) ^ 3]

/-- The right-hand side `crtbp_rhs(U, t, mu)` for `U = [x, y, vx, vy]`,
with `r1 = sqrt((x+mu)^2 + y^2)` and `r2 = sqrt((x-1+mu)^2 + y^2)` the
distances to the two primaries.  The Python code divides by `r1**3` and
`r2**3` with no guard; when a distance is exactly zero the float division
yields non-finite values (`inf`/`nan`), which the embedding models by
`none`. -/
noncomputable def crtbp_rhs (mu : ℝ) (U : Fin 4 → ℝ) : Option (Fin 4 → ℝ) :=
  if Real.sqrt ((U 0 + mu) ^ 2 + (U 1) ^ 2) = 0 ∨
      Real.sqrt ((U 0 - 1 + mu) ^ 2 + (U 1) ^ 2) = 0 then none
  else
    some ![U 2, U 3,
      2 * U 3 + U 0
        - (1 - mu) * (U 0 + mu) / Real.sqrt ((U 0 + mu) ^ 2 + (U 1) ^ 2) ^ 3
        - mu * (U 0 - 1 + mu) / Real.sqrt ((U 0 - 1 + mu) ^ 2 + (U 1) ^ 2) ^ 3,
      -2 * U 2 + U 1
        - (1 - mu) * U 1 / Real.sqrt ((U 0 + mu) ^ 2 + (U 1) ^ 2) ^ 3
        - mu * U 1 / Real.sqrt ((U 0 - 1 + mu) ^ 2 + (U 1) ^ 2) ^ 3]

/-- The right-hand side `arenstorf_rhs(U, t, mu)` for `U = [x, y, vx, vy]`,
with `D1 = ((x+mu)^2 + y^2)^(3/2)` and `D2 = ((x-1+mu)^2 + y^2)^(3/2)`.
The Python code divides by `D1` and `D2` with no guard; a zero denominator
yields non-finite values, modelled by `none`. -/
noncomputable def arenstorf_rhs (mu : ℝ) (U : Fin 4 → ℝ) :
    Option (Fin 4 → ℝ) :=
  if ((U 0 + mu) ^ 2 + (U 1) ^ 2) ^ ((3 : ℝ) / 2) = 0 ∨
      ((U 0 - 1 + mu) ^ 2 + (U 1) ^ 2) ^ ((3 : ℝ) / 2) = 0 then none
  else
    some ![U 2, U 3,
      U 0 + 2 * U 3
        - (1 - mu) * (U 0 + mu) / ((U 0 + mu) ^ 2 + (U 1) ^ 2) ^ ((3 : ℝ) / 2)
        - mu * (U 0 - 1 + mu) / ((U 0 - 1 + mu) ^ 2 + (U 1) ^ 2) ^ ((3 : ℝ) / 2),
      U 1 - 2 * U 2
        - (1 - mu) * U 1 / ((U 0 + mu) ^ 2 + (U 1) ^ 2) ^ ((3 : ℝ) / 2)
        - mu * U 1 / ((U 0 - 1 + mu) ^ 2 + (U 1) ^ 2) ^ ((3 : ℝ) / 2)]

/-- The series parameter `q = (mu/(1 - mu))**(1/3)` of
`crtbp_lagrange_points`. -/
noncomputable def lagrange_q (mu : ℝ) : ℝ :=
  (mu / (1 - mu)) ^ ((1 : ℝ) / 3)

/-- The five equilibrium positions returned by `crtbp_lagrange_points`. -/
structure LagrangePoints where
  L1 : ℝ × ℝ
  L2 : ℝ × ℝ
  L3 : ℝ × ℝ
  L4 : ℝ × ℝ
  L5 : ℝ × ℝ

/-- The locator `crtbp_lagrange_points(mu)`: `L4`/`L5` are the triangular
points `(0.5 - mu, ±sqrt(3)/2)`; `L1`/`L2` are third-order series in
`q = (mu/(1-mu))**(1/3)` around the second primary `x2 = 1 - mu`; `L3` is
the polynomial `-1 - 5*mu/12 + mu**2/3` in `mu`. -/
noncomputable def crtbp_lagrange_points (mu : ℝ) : LagrangePoints :=
  { L1 := ((1 - mu) - (lagrange_q mu - lagrange_q mu ^ 2 / 3 - lagrange_q mu ^ 3 / 9), 0)
    L2 := ((1 - mu) + (lagrange_q mu + lagrange_q mu ^ 2 / 3 + lagrange_q mu ^ 3 / 9), 0)
    L3 := (-1 - 5 * mu / 12 + mu ^ 2 / 3, 0)
    L4 := (0.5 - mu, Real.sqrt 3 / 2)
    L5 := (0.5 - mu, -(Real.sqrt 3 / 2)) }

/-! ## Stability.py: amplification factors and Leap-Frog stability -/

/-- Amplification factor of explicit Euler, `G(z) = 1 + z`. -/
def G_euler (z : ℂ) : ℂ := 1 + z

/-- Amplification factor of inverse Euler, `G(z) = 1/(1 - z)`. -/
noncomputable def G_inverse_euler (z : ℂ) : ℂ := 1 / (1 - z)

/-- Amplification factor of Crank-Nicolson, `G(z) = (1 + z/2)/(1 - z/2)`. -/
noncomputable def G_crank_nicolson (z : ℂ) : ℂ := (1 + z / 2) / (1 - z / 2)

/-- Amplification factor of RK4, `G(z) = 1 + z + z^2/2 + z^3/6 + z^4/24`. -/
noncomputable def G_rk4 (z : ℂ) : ℂ := 1 + z + z ^ 2 / 2 + z ^ 3 / 6 + z ^ 4 / 24

/-- The principal complex square root computed by `np.sqrt`: the power
`w**(1/2)` on the principal branch. -/
noncomputable def np_sqrt (w : ℂ) : ℂ := w ^ ((1 : ℂ) / 2)

/-- The predicate `stable_leapfrog(z)`: with `root = np.sqrt(z**2 + 1)`,
both `r1 = z + root` and `r2 = z - root` have modulus at most 1. -/
noncomputable def stable_leapfrog (z : ℂ) : Prop :=
  Complex.abs (z + np_sqrt (z ^ 2 + 1)) ≤ 1 ∧
    Complex.abs (z - np_sqrt (z ^ 2 + 1)) ≤ 1
theorem linspace_length (a b : ℚ) (n : ℕ) : (linspace a b n).length = n := by
  unfold linspace
  split
  · rw [List.length_replicate]
  · rw [List.length_map, List.length_range]

theorem linspace_getD (a b : ℚ) {n : ℕ} (hn : 2 ≤ n) {k : ℕ} (hk : k < n) :
    (linspace a b n).getD k 0 = a + (k : ℚ) * (b - a) / ((n : ℚ) - 1) := by
  unfold linspace
  rw [if_neg (by omega), List.getD_eq_getElem?_getD, List.getElem?_map,
    List.getElem?_range hk]
  rfl

theorem n_steps_floor (t0 tf dt : ℚ) (h0 : t0 ≤ tf) (h2 : 0 < dt) :
    n_steps t0 tf dt = ⌊(tf - t0) / dt⌋ + 1 := by
  unfold n_steps pytrunc
  rw [if_neg (not_lt.2 (div_nonneg (sub_nonneg.2 h0) h2.le))]

theorem two_le_n_steps (t0 tf dt : ℚ) (h2 : 0 < dt) (h3 : dt ≤ tf - t0) :
    2 ≤ n_steps t0 tf dt := by
  have h0 : t0 ≤ tf := by linarith
  rw [n_steps_floor t0 tf dt h0 h2]
  have h1 : (1 : ℚ) ≤ (tf - t0) / dt := (one_le_div h2).2 h3
  have h4 : (1 : ℤ) ≤ ⌊(tf - t0) / dt⌋ := Int.le_floor.2 (by exact_mod_cast h1)
  omega

/-- C1, amended.  The claim asserts a grid of `floor((tf-t0)/dt) + 1`
points with uniform spacing `dt` whose last point may undershoot `tf`.
The point count is as claimed, but `integrate_cauchy` builds the grid with
`np.linspace(t0, tf, n_steps)`, so the uniform spacing is
`(tf - t0)/(n_steps - 1)` — equal to `dt` only when `tf - t0` is an exact
multiple of `dt` — and the last point is exactly `tf`, never undershooting
it (shown here for `dt ≤ tf - t0`, where the grid has at least two
points). -/
theorem c1_time_grid (t0 tf dt : ℚ) (h1 : t0 < tf) (h2 : 0 < dt)
    (h3 : dt ≤ tf - t0) :
    n_steps t0 tf dt = ⌊(tf - t0) / dt⌋ + 1 ∧
    2 ≤ (n_steps t0 tf dt).toNat ∧
    (tgrid t0 tf dt).length = (n_steps t0 tf dt).toNat ∧
    (tgrid t0 tf dt).getD 0 0 = t0 ∧
    (tgrid t0 tf dt).getD ((n_steps t0 tf dt).toNat - 1) 0 = tf ∧
    (∀ k : ℕ, k + 1 < (n_steps t0 tf dt).toNat →
      (tgrid t0 tf dt).getD (k + 1) 0 - (tgrid t0 tf dt).getD k 0
        = (tf - t0) / (((n_steps t0 tf dt).toNat : ℚ) - 1)) := by
  have h0 : t0 ≤ tf := h1.le
  have hfl := n_steps_floor t0 tf dt h0 h2
  have h2n : 2 ≤ n_steps t0 tf dt := two_le_n_steps t0 tf dt h2 h3
  have h2nn : 2 ≤ (n_steps t0 tf dt).toNat := by omega
  have htg : tgrid t0 tf dt = linspace t0 tf (n_steps t0 tf dt).toNat := rfl
  have hq : (((n_steps t0 tf dt).toNat : ℚ) - 1) ≠ 0 := by
    have : (2 : ℚ) ≤ ((n_steps t0 tf dt).toNat : ℚ) := by exact_mod_cast h2nn
    linarith
  refine ⟨hfl, h2nn, by rw [htg]; exact linspace_length _ _ _, ?_, ?_, ?_⟩
  · rw [htg, linspace_getD _ _ h2nn (by omega)]
    simp
  · rw [htg, linspace_getD _ _ h2nn
      (by omega : (n_steps t0 tf dt).toNat - 1 < (n_steps t0 tf dt).toNat)]
    rw [Nat.cast_sub (by omega : 1 ≤ (n_steps t0 tf dt).toNat)]
    push_cast
    field_simp
  · intro k hk
    rw [htg, linspace_getD _ _ h2nn (by omega), linspace_getD _ _ h2nn (by omega)]
    push_cast
    field_simp
    ring

/-- Witness for C1 at `t0 = 0`, `tf = 1`, `dt = 3/8`. -/
theorem c1_time_grid_witness :
    n_steps 0 1 (3/8) = ⌊((1 : ℚ) - 0) / (3/8)⌋ + 1 ∧
    2 ≤ (n_steps 0 1 (3/8)).toNat ∧
    (tgrid 0 1 (3/8)).length = (n_steps 0 1 (3/8)).toNat ∧
    (tgrid 0 1 (3/8)).getD 0 0 = 0 ∧
    (tgrid 0 1 (3/8)).getD ((n_steps 0 1 (3/8)).toNat - 1) 0 = 1 ∧
    (∀ k : ℕ, k + 1 < (n_steps 0 1 (3/8)).toNat →
      (tgrid 0 1 (3/8)).getD (k + 1) 0 - (tgrid 0 1 (3/8)).getD k 0
        = ((1 : ℚ) - 0) / (((n_steps 0 1 (3/8)).toNat : ℚ) - 1)) :=
  c1_time_grid 0 1 (3/8) (by norm_num) (by norm_num) (by norm_num)

/-- Counterexample to C1 as stated: for `t0 = 0`, `tf = 1`, `dt = 3/8`
(all exactly representable in binary floating point) the grid is
`[0, 1/2, 1]`, whose spacing `1/2` differs from `dt = 3/8`. -/
theorem c1_counterexample :
    tgrid 0 1 (3/8) = [0, 1/2, 1] ∧
    (tgrid 0 1 (3/8)).getD 1 0 - (tgrid 0 1 (3/8)).getD 0 0 ≠ 3/8 := by
  have h : tgrid 0 1 (3/8) = [0, 1/2, 1] := by
    norm_num [tgrid, n_steps, pytrunc, linspace]
    rw [show ((3 : ℤ).toNat) = 3 from rfl]
    norm_num [List.range_succ]
  refine ⟨h, ?_⟩
  rw [h]
  norm_num [List.getD]

theorem integrate_one_step_single (d : ℕ) (s : OneStep d) (U0 : State d)
    (t0 tf dt : ℚ) (F : Rhs d) (hdt : dt ≠ 0) (h1 : n_steps t0 tf dt = 1) :
    integrate_cauchy d (SchemeArg.one s) U0 t0 tf dt F false
      = some ([t0], [U0]) := by
  simp only [integrate_cauchy, if_neg hdt, h1]
  norm_num [linspace, one_step_orbit, List.range_succ]

/-- C10: whenever the grid has a single point (`n_steps = 1`), the
Leap-Frog branch of `integrate_cauchy` fails with an out-of-bounds write
(the unconditional bootstrap assignment to row 1, modelled `none`), while
the one-step branch returns the one-point trajectory `([t0], [U0])`. -/
theorem c10_leapfrog_single_point (d : ℕ) (s2 : TwoStep d) (s1 : OneStep d)
    (U0 : State d) (F : Rhs d) (t0 tf dt : ℚ) (hdt : dt ≠ 0)
    (h1 : n_steps t0 tf dt = 1) :
    integrate_cauchy d (SchemeArg.two s2) U0 t0 tf dt F true = none ∧
    integrate_cauchy d (SchemeArg.one s1) U0 t0 tf dt F false
      = some ([t0], [U0]) := by
  refine ⟨?_, integrate_one_step_single d s1 U0 t0 tf dt F hdt h1⟩
  simp only [integrate_cauchy, if_neg hdt, h1]
  norm_num

/-- Witness for C10 at `t0 = 0`, `tf = 1/2`, `dt = 1`, where
`n_steps = 1`. -/
theorem c10_witness :
    integrate_cauchy 1 (SchemeArg.two (Leap_Frog 1)) (fun _ => 1) 0 (1/2) 1
      (fun U _ => U) true = none ∧
    integrate_cauchy 1 (SchemeArg.one (Euler 1)) (fun _ => 1) 0 (1/2) 1
      (fun U _ => U) false = some ([0], [fun _ => 1]) :=
  c10_leapfrog_single_point 1 (Leap_Frog 1) (Euler 1) (fun _ => 1)
    (fun U _ => U) 0 (1/2) 1 (by norm_num) (by norm_num [n_steps, pytrunc])

/-- C9, amended.  The claim asserts that `dt ≤ 0` or `tf ≤ t0` raises a
configuration error at setup, before any trajectory point is produced.
`integrate_cauchy` performs no setup validation at all: with an empty span
`tf = t0` and any `dt > 0` it returns the one-point trajectory
`([t0], [U0])` instead of raising; other invalid configurations fail only
through downstream array errors, not a setup check. -/
theorem c9_empty_span_no_error (d : ℕ) (s : OneStep d) (U0 : State d)
    (t0 dt : ℚ) (F : Rhs d) (hdt : 0 < dt) :
    integrate_cauchy d (SchemeArg.one s) U0 t0 t0 dt F false
      = some ([t0], [U0]) :=
  integrate_one_step_single d s U0 t0 t0 dt F hdt.ne'
    (by simp [n_steps, pytrunc])

/-- Witness for C9 (amended) at `t0 = tf = 0`, `dt = 1`. -/
theorem c9_empty_span_witness :
    integrate_cauchy 1 (SchemeArg.one (Euler 1)) (fun _ => 1) 0 0 1
      (fun U _ => U) false = some ([0], [fun _ => 1]) :=
  c9_empty_span_no_error 1 (Euler 1) (fun _ => 1) 0 1 (fun U _ => U)
    (by norm_num)

/-- Counterexample to C9 as stated: with the empty time span
`t0 = tf = 2` and step `dt = 1/2 > 0` the driver raises nothing and
produces a trajectory point. -/
theorem c9_counterexample :
    integrate_cauchy 1 (SchemeArg.one (Euler 1)) (fun _ => 1) 2 2 (1/2)
      (fun U _ => U) false = some ([2], [fun _ => 1]) := by
  norm_num [integrate_cauchy, n_steps, pytrunc, linspace, List.range_succ,
    one_step_orbit]

theorem integrate_leapfrog_run (d : ℕ) (U0 : State d) (t0 tf dt : ℚ)
    (F : Rhs d) (hdt : dt ≠ 0) (h2 : 2 ≤ n_steps t0 tf dt) :
    integrate_cauchy d (SchemeArg.two (Leap_Frog d)) U0 t0 tf dt F true
      = some (tgrid t0 tf dt, lf_traj d U0 t0 tf dt F) := by
  simp only [integrate_cauchy, if_neg hdt]
  rw [if_neg (by omega : ¬ n_steps t0 tf dt < 0),
    if_neg (by omega : ¬ n_steps t0 tf dt = 0)]
  simp only [if_true]
  rw [if_neg (by omega : ¬ n_steps t0 tf dt < 2)]
  rfl

theorem lf_traj_length (d : ℕ) (U0 : State d) (t0 tf dt : ℚ) (F : Rhs d) :
    (lf_traj d U0 t0 tf dt F).length = (n_steps t0 tf dt).toNat := by
  unfold lf_traj
  rw [List.length_map, List.length_range]

theorem lf_traj_getD (d : ℕ) (U0 : State d) (t0 tf dt : ℚ) (F : Rhs d)
    {i : ℕ} (hi : i < (n_steps t0 tf dt).toNat) :
    (lf_traj d U0 t0 tf dt F).getD i 0
      = leapfrog_orbit d (Leap_Frog d) U0
          (fun j => (tgrid t0 tf dt).getD j 0) dt F i := by
  unfold lf_traj
  rw [List.getD_eq_getElem?_getD, List.getElem?_map, List.getElem?_range hi]
  rfl

theorem tgrid_getD_zero (t0 tf dt : ℚ) (h : 1 ≤ (n_steps t0 tf dt).toNat) :
    (tgrid t0 tf dt).getD 0 0 = t0 := by
  have htg : tgrid t0 tf dt = linspace t0 tf (n_steps t0 tf dt).toNat := rfl
  rcases eq_or_lt_of_le h with h1 | h2
  · rw [htg, ← h1]
    simp [linspace]
  · rw [htg, linspace_getD _ _ (by omega) (by omega)]
    simp

/-- C2: in Leap-Frog mode over a grid of at least three points, the first
output state is `U0`, the second is the explicit-Euler bootstrap
`U0 + dt*F(U0, t0)`, and every later state at index `i+1` is
`U_{i-1} + 2*dt*F(U_i, t_i)` with `t_i` the grid time at index `i`. -/
theorem c2_leapfrog_bootstrap (d : ℕ) (U0 : State d) (F : Rhs d)
    (t0 tf dt : ℚ) (hdt : 0 < dt) (hn : 3 ≤ n_steps t0 tf dt) :
    integrate_cauchy d (SchemeArg.two (Leap_Frog d)) U0 t0 tf dt F true
      = some (tgrid t0 tf dt, lf_traj d U0 t0 tf dt F) ∧
    (lf_traj d U0 t0 tf dt F).length = (n_steps t0 tf dt).toNat ∧
    (lf_traj d U0 t0 tf dt F).getD 0 0 = U0 ∧
    (lf_traj d U0 t0 tf dt F).getD 1 0 = U0 + dt • F U0 t0 ∧
    (∀ i : ℕ, 1 ≤ i → i + 1 < (n_steps t0 tf dt).toNat →
      (lf_traj d U0 t0 tf dt F).getD (i + 1) 0
        = (lf_traj d U0 t0 tf dt F).getD (i - 1) 0
          + (2 * dt) • F ((lf_traj d U0 t0 tf dt F).getD i 0)
              ((tgrid t0 tf dt).getD i 0)) := by
  have h2 : 2 ≤ n_steps t0 tf dt := by omega
  have h2n : 2 ≤ (n_steps t0 tf dt).toNat := by omega
  refine ⟨integrate_leapfrog_run d U0 t0 tf dt F hdt.ne' h2,
    lf_traj_length d U0 t0 tf dt F, ?_, ?_, ?_⟩
  · rw [lf_traj_getD d U0 t0 tf dt F (by omega)]
    rfl
  · rw [lf_traj_getD d U0 t0 tf dt F (by omega)]
    show Euler d U0 ((tgrid t0 tf dt).getD 0 0) dt F = _
    rw [tgrid_getD_zero t0 tf dt (by omega)]
    rfl
  · intro i h1i hi
    obtain ⟨m, rfl⟩ : ∃ m, i = m + 1 := ⟨i - 1, by omega⟩
    rw [lf_traj_getD d U0 t0 tf dt F (by omega : m + 1 + 1 < (n_steps t0 tf dt).toNat),
      lf_traj_getD d U0 t0 tf dt F (by omega : m + 1 - 1 < (n_steps t0 tf dt).toNat),
      lf_traj_getD d U0 t0 tf dt F (by omega : m + 1 < (n_steps t0 tf dt).toNat)]
    simp only [Nat.add_sub_cancel]
    rfl

/-- Witness for C2: one dimension, `F(U, t) = U`, `U0 = [1]`, `t0 = 0`,
`tf = 1`, `dt = 1/2`, a grid of three points. -/
theorem c2_leapfrog_bootstrap_witness :
    integrate_cauchy 1 (SchemeArg.two (Leap_Frog 1)) (fun _ => 1) 0 1 (1/2)
      (fun U _ => U) true
      = some (tgrid 0 1 (1/2), lf_traj 1 (fun _ => 1) 0 1 (1/2) (fun U _ => U)) ∧
    (lf_traj 1 (fun _ => 1) 0 1 (1/2) (fun U _ => U)).length
      = (n_steps 0 1 (1/2)).toNat ∧
    (lf_traj 1 (fun _ => 1) 0 1 (1/2) (fun U _ => U)).getD 0 0 = (fun _ => 1) ∧
    (lf_traj 1 (fun _ => 1) 0 1 (1/2) (fun U _ => U)).getD 1 0
      = (fun _ => 1 : State 1) + ((1:ℚ)/2) • (fun U _ => U : Rhs 1) (fun _ => 1) 0 ∧
    (∀ i : ℕ, 1 ≤ i → i + 1 < (n_steps 0 1 (1/2)).toNat →
      (lf_traj 1 (fun _ => 1) 0 1 (1/2) (fun U _ => U)).getD (i + 1) 0
        = (lf_traj 1 (fun _ => 1) 0 1 (1/2) (fun U _ => U)).getD (i - 1) 0
          + (2 * ((1:ℚ)/2)) • (fun U _ => U : Rhs 1)
              ((lf_traj 1 (fun _ => 1) 0 1 (1/2) (fun U _ => U)).getD i 0)
              ((tgrid 0 1 (1/2)).getD i 0)) :=
  c2_leapfrog_bootstrap 1 (fun _ => 1) (fun U _ => U) 0 1 (1/2)
    (by norm_num) (by norm_num [n_steps, pytrunc])

theorem norm3_sub_symm (x y : Fin 3 → ℝ) :
    norm3 (fun e => y e - x e) = norm3 (fun e => x e - y e) := by
  unfold norm3
  congr 1
  apply Finset.sum_congr rfl
  intro e _
  ring

theorem nbody_pair_antisymm (G : ℝ) (mi mj : ℝ) (ri rj : Fin 3 → ℝ) (c : Fin 3) :
    mj * nbody_pair_acc G mi rj ri c = -(mi * nbody_pair_acc G mj ri rj c) := by
  unfold nbody_pair_acc
  rw [norm3_sub_symm ri rj]
  by_cases hc : norm3 (fun e => ri e - rj e) < 1e-10
  · rw [if_pos hc, if_pos hc]
    ring
  · rw [if_neg hc, if_neg hc]
    ring

/-- C3: the mass-weighted sum of the accelerations computed by `nbody_rhs`
vanishes identically in every component, for every state, mass array and
gravitational constant — the pairwise contributions cancel by antisymmetry,
also when the below-threshold clamp skips a pair, since the clamp condition
is symmetric in the pair; hence the time derivative of the total linear
momentum `sum(m_i * v_i)` under `dU/dt = nbody_rhs(U, ...)` is zero. -/
theorem c3_momentum_conservation (N : ℕ) (masses : Fin N → ℝ) (G : ℝ)
    (pos vel : Fin N → Fin 3 → ℝ) (c : Fin 3) :
    ∑ i, masses i * (nbody_rhs N masses G pos vel).2 i c = 0 := by
  set f : Fin N → Fin N → ℝ := fun i j =>
    masses i * (if j = i then 0 else nbody_pair_acc G (masses j) (pos i) (pos j) c)
    with hf
  have hexp : ∑ i, masses i * (nbody_rhs N masses G pos vel).2 i c
      = ∑ i, ∑ j, f i j := by
    apply Finset.sum_congr rfl
    intro i _
    rw [show (nbody_rhs N masses G pos vel).2 i c
        = nbody_acc N masses G pos i c from rfl]
    unfold nbody_acc
    rw [Finset.mul_sum]
  have hanti : ∀ i j, f j i = - f i j := by
    intro i j
    by_cases hij : i = j
    · subst hij
      simp [hf]
    · rw [hf]
      simp only
      rw [if_neg hij, if_neg (Ne.symm hij)]
      exact nbody_pair_antisymm G (masses i) (masses j) (pos i) (pos j) c
  have hflip : ∑ i, ∑ j, f i j = ∑ i, ∑ j, - f j i := by
    apply Finset.sum_congr rfl
    intro i _
    apply Finset.sum_congr rfl
    intro j _
    rw [hanti j i]
  have hneg : ∑ i, ∑ j, (- f j i) = - ∑ i, ∑ j, f j i := by
    simp
  have hcomm : ∑ i, ∑ j, f j i = ∑ i, ∑ j, f i j := Finset.sum_comm
  have hself : ∑ i, ∑ j, f i j = - ∑ i, ∑ j, f i j := by
    conv_lhs => rw [hflip, hneg, hcomm]
  rw [hexp]
  linarith [hself]

/-- C4, amended.  `kepler_rhs` and `nbody_rhs` do clamp: below the `1e-10`
separation threshold the gravitational contribution is set to zero and the
returned derivative stays finite.  `crtbp_rhs` and `arenstorf_rhs` have no
such guard: they divide by the cube of the distance to each primary, and at
a primary's position (zero separation) the float division produces
non-finite components (modelled `none`) instead of a finite vector. -/
theorem c4_singularity_guards :
    (∀ (mu : ℝ) (U : Fin 4 → ℝ), Real.sqrt ((U 0) ^ 2 + (U 1) ^ 2) < 1e-10 →
      kepler_rhs mu U = ![U 2, U 3, 0, 0]) ∧
    (∀ (G mj : ℝ) (ri rj : Fin 3 → ℝ),
      norm3 (fun e => ri e - rj e) < 1e-10 →
      nbody_pair_acc G mj ri rj = fun _ => 0) ∧
    (∀ (mu : ℝ) (U : Fin 4 → ℝ), Real.sqrt ((U 0 + mu) ^ 2 + (U 1) ^ 2) = 0 →
      crtbp_rhs mu U = none) ∧
    (∀ (mu : ℝ) (U : Fin 4 → ℝ), (U 0 + mu) ^ 2 + (U 1) ^ 2 = 0 →
      arenstorf_rhs mu U = none) := by
  refine ⟨?_, ?_, ?_, ?_⟩
  · intro mu U h
    unfold kepler_rhs
    rw [if_pos h]
  · intro G mj ri rj h
    funext c
    unfold nbody_pair_acc
    rw [if_pos h]
  · intro mu U h
    unfold crtbp_rhs
    rw [if_pos (Or.inl h)]
  · intro mu U h
    unfold arenstorf_rhs
    rw [if_pos (Or.inl (by rw [h]; exact Real.zero_rpow (by norm_num)))]

/-- Counterexample to C4 as stated: at the first primary's position
(the state `[-mu, 0, 0, 0]` with the code's default `mu = 0.012277471`),
`crtbp_rhs` divides by a zero distance and does not return a finite
derivative vector (modelled `none`): it has no below-threshold clamp. -/
theorem c4_counterexample :
    crtbp_rhs 0.012277471 ![-0.012277471, 0, 0, 0] = none := by
  have key : ((![(-0.012277471 : ℝ), 0, 0, 0]) 0 + 0.012277471) ^ 2
      + ((![(-0.012277471 : ℝ), 0, 0, 0]) 1) ^ 2 = 0 := by
    norm_num [show ((![(-0.012277471 : ℝ), 0, 0, 0]) 0) = -0.012277471 from rfl,
      show ((![(-0.012277471 : ℝ), 0, 0, 0]) 1) = 0 from rfl]
  unfold crtbp_rhs
  rw [key, Real.sqrt_zero, if_pos (Or.inl rfl)]

theorem cube_rpow_third (c : ℝ) (hc : 0 ≤ c) :
    ((c ^ 3 : ℝ)) ^ ((1 : ℝ)/3) = c := by
  rw [← Real.rpow_natCast c 3, ← Real.rpow_mul hc]
  norm_num

theorem lagrange_q_val (c mu : ℝ) (hc : 0 ≤ c) (h : mu / (1 - mu) = c ^ 3) :
    lagrange_q mu = c := by
  unfold lagrange_q
  rw [h]
  exact cube_rpow_third c hc

/-- Counterexample to C5 as stated: the `L3` abscissa computed by
`crtbp_lagrange_points`, `-1 - 5*mu/12 + mu^2/3`, is not any third-order
series in `q = (mu/(1-mu))^(1/3)`: no cubic polynomial in `q` matches it on
`(0, 1)`; the five mass ratios `1/28, 1/9, 1/2, 8/9, 27/28`, whose `q`
values are `1/3, 1/2, 1, 2, 3`, already give an unsolvable linear system. -/
theorem c5_counterexample :
    ¬ ∃ a0 a1 a2 a3 : ℝ, ∀ mu : ℝ, 0 < mu → mu < 1 →
      (crtbp_lagrange_points mu).L3.1
        = a0 + a1 * lagrange_q mu + a2 * lagrange_q mu ^ 2
          + a3 * lagrange_q mu ^ 3 := by
  rintro ⟨a0, a1, a2, a3, h⟩
  have hL3 : ∀ mu : ℝ, (crtbp_lagrange_points mu).L3.1
      = -1 - 5 * mu / 12 + mu ^ 2 / 3 := fun mu => rfl
  have q1 : lagrange_q (1/28) = 1/3 :=
    lagrange_q_val (1/3) (1/28) (by norm_num) (by norm_num)
  have q2 : lagrange_q (1/9) = 1/2 :=
    lagrange_q_val (1/2) (1/9) (by norm_num) (by norm_num)
  have q3 : lagrange_q (1/2) = 1 :=
    lagrange_q_val 1 (1/2) (by norm_num) (by norm_num)
  have q4 : lagrange_q (8/9) = 2 :=
    lagrange_q_val 2 (8/9) (by norm_num) (by norm_num)
  have q5 : lagrange_q (27/28) = 3 :=
    lagrange_q_val 3 (27/28) (by norm_num) (by norm_num)
  have e1 := h (1/28) (by norm_num) (by norm_num)
  rw [hL3, q1] at e1
  have e2 := h (1/9) (by norm_num) (by norm_num)
  rw [hL3, q2] at e2
  have e3 := h (1/2) (by norm_num) (by norm_num)
  rw [hL3, q3] at e3
  have e4 := h (8/9) (by norm_num) (by norm_num)
  rw [hL3, q4] at e4
  have e5 := h (27/28) (by norm_num) (by norm_num)
  rw [hL3, q5] at e5
  norm_num at e1 e2 e3 e4 e5
  linarith [e1, e2, e3, e4, e5]

/-- C5, amended: `crtbp_lagrange_points` returns `L4 = (0.5-mu, √3/2)` and
`L5 = (0.5-mu, -√3/2)` exactly — both at unit distance from each primary,
the equilateral-triangle points — and computes `L1` and `L2` by the stated
third-order series in `q = (mu/(1-mu))^(1/3)`; `L3`, however, is the
second-order polynomial `-1 - 5*mu/12 + mu^2/3` in `mu`, not a third-order
series in `q`. -/
theorem c5_lagrange_points (mu : ℝ) :
    (crtbp_lagrange_points mu).L1
      = ((1 - mu) - (lagrange_q mu - lagrange_q mu ^ 2 / 3
          - lagrange_q mu ^ 3 / 9), 0) ∧
    (crtbp_lagrange_points mu).L2
      = ((1 - mu) + (lagrange_q mu + lagrange_q mu ^ 2 / 3
          + lagrange_q mu ^ 3 / 9), 0) ∧
    (crtbp_lagrange_points mu).L3 = (-1 - 5 * mu / 12 + mu ^ 2 / 3, 0) ∧
    (crtbp_lagrange_points mu).L4 = (0.5 - mu, Real.sqrt 3 / 2) ∧
    (crtbp_lagrange_points mu).L5 = (0.5 - mu, -(Real.sqrt 3 / 2)) ∧
    ((crtbp_lagrange_points mu).L4.1 - (-mu)) ^ 2
      + (crtbp_lagrange_points mu).L4.2 ^ 2 = 1 ∧
    ((crtbp_lagrange_points mu).L4.1 - (1 - mu)) ^ 2
      + (crtbp_lagrange_points mu).L4.2 ^ 2 = 1 := by
  have hs : Real.sqrt 3 ^ 2 = 3 := Real.sq_sqrt (by norm_num)
  refine ⟨rfl, rfl, rfl, rfl, rfl, ?_, ?_⟩
  · show ((0.5 - mu : ℝ) - (-mu)) ^ 2 + (Real.sqrt 3 / 2) ^ 2 = 1
    rw [div_pow, hs]
    ring_nf
  · show ((0.5 - mu : ℝ) - (1 - mu)) ^ 2 + (Real.sqrt 3 / 2) ^ 2 = 1
    rw [div_pow, hs]
    ring_nf

/-- C6: at `z = 0` each amplification factor has modulus exactly 1 (the
marginal stability boundary), and `G_euler` has modulus exactly 0 at
`z = -1` and exactly 2 at `z = 1`. -/
theorem c6_stability_boundary :
    Complex.abs (G_euler 0) = 1 ∧
    Complex.abs (G_inverse_euler 0) = 1 ∧
    Complex.abs (G_crank_nicolson 0) = 1 ∧
    Complex.abs (G_rk4 0) = 1 ∧
    Complex.abs (G_euler (-1)) = 0 ∧
    Complex.abs (G_euler 1) = 2 := by
  refine ⟨?_, ?_, ?_, ?_, ?_, ?_⟩ <;>
    norm_num [G_euler, G_inverse_euler, G_crank_nicolson, G_rk4]

theorem np_sqrt_sq (w : ℂ) : np_sqrt w ^ 2 = w := by
  by_cases hw : w = 0
  · subst hw
    rw [np_sqrt, Complex.zero_cpow (by norm_num : (1 : ℂ)/2 ≠ 0)]
    norm_num
  · rw [sq, np_sqrt, ← Complex.cpow_add _ _ hw]
    rw [show (1 : ℂ)/2 + 1/2 = 1 by norm_num, Complex.cpow_one]

theorem leapfrog_char_roots (z r : ℂ) :
    r ^ 2 - 2 * z * r - 1 = 0 ↔
      r = z + np_sqrt (z ^ 2 + 1) ∨ r = z - np_sqrt (z ^ 2 + 1) := by
  have hs : np_sqrt (z ^ 2 + 1) ^ 2 = z ^ 2 + 1 := np_sqrt_sq _
  constructor
  · intro h
    have hfac : (r - (z + np_sqrt (z ^ 2 + 1)))
        * (r - (z - np_sqrt (z ^ 2 + 1))) = 0 := by
      have hid : (r - (z + np_sqrt (z ^ 2 + 1)))
          * (r - (z - np_sqrt (z ^ 2 + 1))) = r ^ 2 - 2 * z * r - 1 := by
        linear_combination -hs
      rw [hid, h]
    rcases mul_eq_zero.1 hfac with h1 | h1
    · exact Or.inl (sub_eq_zero.1 h1)
    · exact Or.inr (sub_eq_zero.1 h1)
  · rintro (rfl | rfl)
    · linear_combination hs
    · linear_combination hs

/-- C7: `stable_leapfrog z` holds exactly when every root of the Leap-Frog
characteristic equation `r^2 - 2zr - 1 = 0` — whose roots are precisely
`z ± sqrt(z^2 + 1)` — has modulus at most 1. -/
theorem c7_leapfrog_stability (z : ℂ) :
    stable_leapfrog z ↔
      ∀ r : ℂ, r ^ 2 - 2 * z * r - 1 = 0 → Complex.abs r ≤ 1 := by
  constructor
  · rintro ⟨h1, h2⟩ r hr
    rcases (leapfrog_char_roots z r).1 hr with rfl | rfl
    · exact h1
    · exact h2
  · intro h
    exact ⟨h _ ((leapfrog_char_roots z _).2 (Or.inl rfl)),
      h _ ((leapfrog_char_roots z _).2 (Or.inr rfl))⟩
